import Mathlib

/-!
A shallow embedding of the `chess_std` crate (bitboard chess engine core) in Lean 4,
with theorems checking the natural-language specification claims against the code.

Conventions of the embedding:
* `u64` values (bitboards, hashes) are `Nat`s kept below `2^64`; wrapping left
  shifts are made explicit with `&&& U64MASK`.
* A `Square` is a `Nat` in `0..=63`, with `64` the off-board sentinel, exactly as
  in `units.rs`.
* The generated attack tables (`attack_tables.rs` is produced at build time by
  `generate/attack_gen.rs`, which is translated here loop for loop) are encoded as
  single `Nat`s made of fixed-width slots: a `[Bitboard; 64]` grid becomes a `Nat`
  with 64-bit slots (`gridGet`/`gridSet`), a `[[T; 64]; 64]` table uses slot index
  `from * 64 + to`.
* Fallible Rust code (`Result`, panics, `assert!`) is embedded with
  `Except`/`Option`; a `none`/`error` result marks a path on which the Rust code
  would return an error or abort.
* Loop accumulators are forced to numeric literals via `nforce` (pattern matching)
  so that concrete evaluation by `decide` stays stack-safe; this does not change
  any value.
-/

set_option maxRecDepth 100000
set_option maxHeartbeats 1000000000

/-- Forces a `Nat` to a literal before continuing; semantically `k n`. -/
def nforce (n : Nat) (k : Nat → Nat) : Nat :=
  match n with
  | 0 => k 0
  | m+1 => k (m+1)

/-- The all-ones 64-bit mask: `u64::MAX`. -/
def U64MASK : Nat := 0xffffffffffffffff

/-! ## units.rs: Color, PieceType, Piece, Direction, Square -/

/-- The designation of a player (`units.rs::Color`). -/
inductive Color where
  | White
  | Black
deriving DecidableEq

open Color

/-- The opponent of the player (`Color::opponent`). -/
def Color.opponent : Color → Color
  | White => Black
  | Black => White

/-- The index of a color (`Color::index`). -/
def Color.index : Color → Nat
  | White => 0
  | Black => 1

/-- The role of a piece (`units.rs::PieceType`). -/
inductive PieceType where
  | Pawn
  | Knight
  | Bishop
  | Rook
  | Queen
  | King
deriving DecidableEq

open PieceType

/-- The discriminant of a piece type (`PieceType::index`). -/
def PieceType.index : PieceType → Nat
  | Pawn => 0
  | Knight => 1
  | Bishop => 2
  | Rook => 3
  | Queen => 4
  | King => 5

/-- All the piece types, in discriminant order (`units.rs::ALL_PIECE_TYPES`). -/
def ALL_PIECE_TYPES : List PieceType := [Pawn, Knight, Bishop, Rook, Queen, King]

/-- If a pawn can promote into this piece type (`PieceType::can_be_promotion`):
`self > Pawn && self < King` in discriminant order. -/
def PieceType.canBePromotion (pt : PieceType) : Bool :=
  0 < pt.index && pt.index < 5

/-- A piece owned by a player (`units.rs::Piece`). -/
structure Piece where
  color : Color
  ptype : PieceType
deriving DecidableEq

/-- The index of a piece (`Piece::index`): `6 * color + ptype`. -/
def Piece.index (pc : Piece) : Nat := 6 * pc.color.index + pc.ptype.index

/-- The 9 basic directions (`units.rs::Direction`). -/
inductive Direction where
  | North
  | South
  | East
  | West
  | NorthWest
  | NorthEast
  | SouthWest
  | SouthEast
  | NoDir
deriving DecidableEq

open Direction

/-- The signed square delta of a direction (its `#[repr(i8)]` discriminant). -/
def Direction.delta : Direction → Int
  | North => 8
  | South => -8
  | East => 1
  | West => -1
  | NorthWest => 7
  | NorthEast => 9
  | SouthWest => -9
  | SouthEast => -7
  | NoDir => 0

/-- The table index of a direction (`Direction::index`). -/
def Direction.dindex : Direction → Nat
  | North => 0
  | South => 1
  | East => 2
  | West => 3
  | NorthWest => 4
  | NorthEast => 5
  | SouthWest => 6
  | SouthEast => 7
  | NoDir => 8

/-- The 8 real directions in the order of `units.rs::ALL_DIRECTIONS`. -/
def ALL_DIRECTIONS : List Direction :=
  [North, South, East, West, NorthWest, NorthEast, SouthWest, SouthEast]

/-- The direction in which pawns of a color move (`Direction::of_pawns`). -/
def Direction.ofPawns : Color → Direction
  | White => North
  | Black => South

/-- Decodes a direction from its table index (inverse of `Direction::dindex`,
used to read the `DIR_BETWEEN` table slots). -/
def Direction.ofIndex : Nat → Direction
  | 0 => North
  | 1 => South
  | 2 => East
  | 3 => West
  | 4 => NorthWest
  | 5 => NorthEast
  | 6 => SouthWest
  | 7 => SouthEast
  | _ => NoDir

/-- A square is a `Nat` in `0..=63`; `64` is `Square::NONE`. -/
abbrev Square := Nat

/-- The off-board sentinel `Square::NONE`. -/
def SQ_NONE : Square := 64

/-- The rank index of a square (`Square::rank`). -/
def Square.rankOf (sq : Square) : Nat := sq >>> 3

/-- The file index of a square (`Square::file`). -/
def Square.fileOf (sq : Square) : Nat := sq &&& 7

/-- A square from a rank and a file (`Square::new`). -/
def Square.mk (r f : Nat) : Square := (r <<< 3) + f

/-- Whether the square is on the board (`Square::is_on_board`). -/
def Square.isOnBoard (sq : Square) : Bool := sq < 64

/-- Shift a square in a direction (`Square::shift`): signed add, any
non-positive result becomes `Square::NONE`. -/
def Square.shiftDir (sq : Square) (d : Direction) : Square :=
  let s : Int := (sq : Int) + d.delta
  if 0 < s then s.toNat else SQ_NONE

/-- A rank relative to a player (`Rank::relative`): flipped for Black. -/
def Rank.relative (r : Nat) (c : Color) : Nat :=
  match c with
  | White => r
  | Black => 7 - r

/-- The relative rank 2, where the pawns start (`Rank::of_pawns`). -/
def Rank.ofPawns (c : Color) : Nat := Rank.relative 1 c

/-- The relative rank 8 (`Rank::last`). -/
def Rank.lastOf (c : Color) : Nat := Rank.relative 7 c

/-! ## bit.rs: Bitboard primitives (a bitboard is a `Nat < 2^64`) -/

/-- A bitboard containing a single square (`bit::single`), clipped to 64 bits
(`1u64 << 64` would abort in Rust; no caller shifts by the sentinel). -/
def bitSingle (sq : Square) : Nat := (1 <<< sq) &&& U64MASK

/-- Membership test (`Bitboard::get`). -/
def bbGet (bb : Nat) (sq : Square) : Bool := bb &&& (1 <<< sq) != 0

/-- Add a square to the set (`Bitboard::add`). -/
def bbAdd (bb : Nat) (sq : Square) : Nat := bb ||| bitSingle sq

/-- Remove a square from the set (`Bitboard::remove`). -/
def bbRemove (bb : Nat) (sq : Square) : Nat := bb &&& (U64MASK ^^^ bitSingle sq)

/-- Whether two sets intersect (`Bitboard::intersects`). -/
def bbIntersects (a b : Nat) : Bool := a &&& b != 0

/-- The 64-bit complement (`!bb` on `u64`). -/
def bbNot (bb : Nat) : Nat := U64MASK ^^^ bb

/-- Bitboard constants from `bit.rs`. -/
def RANK_1 : Nat := 0xff
def RANK_8 : Nat := 0xff00000000000000
def FILE_A : Nat := 0x0101010101010101
def FILE_H : Nat := 0x8080808080808080
def DIAG_A1_H8 : Nat := 0x8040201008040201
def DIAG_A8_H1 : Nat := 0x0102040810204080

/-- Directional shift of a whole bitboard (`Bitboard::shift`), with the
wrap-around files masked out and 64-bit wrapping made explicit. -/
def bbShift (bb : Nat) (d : Direction) : Nat :=
  match d with
  | North => (bb <<< 8) &&& U64MASK
  | South => bb >>> 8
  | East => ((bb &&& bbNot FILE_H) <<< 1) &&& U64MASK
  | NorthEast => ((bb &&& bbNot FILE_H) <<< 9) &&& U64MASK
  | SouthEast => (bb &&& bbNot FILE_H) >>> 7
  | West => (bb &&& bbNot FILE_A) >>> 1
  | NorthWest => ((bb &&& bbNot FILE_A) <<< 7) &&& U64MASK
  | SouthWest => (bb &&& bbNot FILE_A) >>> 9
  | NoDir => bb

/-- The number of squares in the set (`Bitboard::pop_count`, i.e.
`u64::count_ones`), computed by the standard 64-bit SWAR population count. -/
def popCount64 (bb : Nat) : Nat :=
  let a := bb - ((bb >>> 1) &&& 0x5555555555555555)
  let b := (a &&& 0x3333333333333333) + ((a >>> 2) &&& 0x3333333333333333)
  let c := (b + (b >>> 4)) &&& 0x0f0f0f0f0f0f0f0f
  ((c * 0x0101010101010101) &&& U64MASK) >>> 56

/-- The floor base-2 logarithm of a 64-bit value by binary search (helper for
the bit scans). -/
def log2u64 (x0 : Nat) : Nat :=
  let p1 := if x0 &&& 0xffffffff = 0 then ((x0 >>> 32 : Nat), (32 : Nat)) else (x0, 0)
  let p2 := if p1.1 &&& 0xffff = 0 then ((p1.1 >>> 16 : Nat), p1.2 + 16) else p1
  let p3 := if p2.1 &&& 0xff = 0 then ((p2.1 >>> 8 : Nat), p2.2 + 8) else p2
  let p4 := if p3.1 &&& 0xf = 0 then ((p3.1 >>> 4 : Nat), p3.2 + 4) else p3
  let p5 := if p4.1 &&& 0x3 = 0 then ((p4.1 >>> 2 : Nat), p4.2 + 2) else p4
  if p5.1 &&& 0x1 = 0 then p5.2 + 1 else p5.2

/-- The index of the least significant one bit, `64` on the empty set
(`Bitboard::scan_forward`, i.e. `u64::trailing_zeros`): the isolated lowest
bit `bb & (2^64 - bb)` is a power of two whose exponent is the answer. -/
def scanForward (bb : Nat) : Square :=
  if bb = 0 then 64 else log2u64 (bb &&& (U64MASK + 1 - bb))

/-- The index of the most significant one bit of a nonzero 64-bit value by
binary search (helper for `scanReverse`). -/
def msb64 (x0 : Nat) : Nat :=
  let p1 := if x0 >>> 32 != 0 then ((x0 >>> 32 : Nat), (32 : Nat)) else (x0, 0)
  let p2 := if p1.1 >>> 16 != 0 then ((p1.1 >>> 16 : Nat), p1.2 + 16) else p1
  let p3 := if p2.1 >>> 8 != 0 then ((p2.1 >>> 8 : Nat), p2.2 + 8) else p2
  let p4 := if p3.1 >>> 4 != 0 then ((p3.1 >>> 4 : Nat), p3.2 + 4) else p3
  let p5 := if p4.1 >>> 2 != 0 then ((p4.1 >>> 2 : Nat), p4.2 + 2) else p4
  if p5.1 >>> 1 != 0 then p5.2 + 1 else p5.2

/-- The index of the most significant one bit, `64` on the empty set
(`Bitboard::scan_reverse`). -/
def scanReverse (bb : Nat) : Square := if bb = 0 then 64 else msb64 bb

/-- Fueled helper for `bbToList`. -/
def bbToListGo : Nat → Nat → List Square
  | 0, _ => []
  | f+1, bb =>
    if bb = 0 then []
    else
      let sq := scanForward bb
      sq :: bbToListGo f (bbRemove bb sq)

/-- The squares of a bitboard in ascending order (the `Iterator` impl of
`Bitboard`: repeatedly `scan_forward` then `remove`). -/
def bbToList (bb : Nat) : List Square := bbToListGo 64 bb

/-! ## generate/attack_gen.rs: the build-time table generator

The generated `attack_tables.rs` is not in the sources; its contents are fully
determined by the generator translated below. A `[Bitboard; 64]` grid is
encoded as one `Nat` of 64 slots of 64 bits (slot `sq` at bit offset
`64 * sq`, helpers `gridGet`/`gridSet`). The two square-by-square tables
(`LINES`, `DIR_BETWEEN`) are encoded as a `List` of 64 such row `Nat`s, one
row per origin square; their source loops write each row independently, so the
rows are built separately here with the writes of each row kept in source
order. -/

/-- Forces a `Nat` to a literal before continuing (polymorphic result);
semantically `k n`. -/
def nforceP (n : Nat) (k : Nat → α) : α :=
  match n with
  | 0 => k 0
  | m+1 => k (m+1)

/-- Reads slot `i` of a 64-bit-slot grid. -/
def gridGet (g : Nat) (i : Nat) : Nat := (g >>> (64 * i)) &&& U64MASK

/-- Writes slot `i` of a 64-bit-slot grid: the old slot value is xor-ed out,
the new value or-ed in. -/
def gridSet (g : Nat) (i : Nat) (v : Nat) : Nat :=
  (g ^^^ (gridGet g i <<< (64 * i))) ||| (v <<< (64 * i))

/-- Reads slot `i` of a 4-bit-slot row (for `DIR_BETWEEN`). -/
def slot4Get (g : Nat) (i : Nat) : Nat := (g >>> (4 * i)) &&& 15

/-- Writes slot `i` of a 4-bit-slot row. -/
def slot4Set (g : Nat) (i : Nat) (v : Nat) : Nat :=
  (g ^^^ (slot4Get g i <<< (4 * i))) ||| (v <<< (4 * i))

/-- North block of `build_rays`: `bb` starts at `FILE_A ^ single(A1)` and is
shifted left once per square, ascending. -/
def raysNorthGo : Nat → Nat → Nat → Nat → Nat
  | 0, _, _, g => g
  | f+1, sq, bb, g =>
    nforce (gridSet g sq bb) fun g2 =>
    nforce ((bb <<< 1) &&& U64MASK) fun bb2 =>
    raysNorthGo f (sq + 1) bb2 g2

/-- The `RAYS[North]` grid. -/
def raysNorth : Nat := raysNorthGo 64 0 (FILE_A ^^^ bitSingle 0) 0

/-- South block of `build_rays`: `bb` starts at `FILE_H ^ single(H8)` and is
shifted right once per square, descending (the fuel is `sq + 1`). -/
def raysSouthGo : Nat → Nat → Nat → Nat
  | 0, _, g => g
  | f+1, bb, g =>
    nforce (gridSet g f bb) fun g2 =>
    raysSouthGo f (bb >>> 1) g2

/-- The `RAYS[South]` grid. -/
def raysSouth : Nat := raysSouthGo 64 (FILE_H ^^^ bitSingle 63) 0

/-- Inner file loop of the East block: `ray` is shifted East before each write. -/
def raysEastInner : Nat → Nat → Nat → Nat → Nat → Nat
  | 0, _, _, _, g => g
  | k+1, r, f, ray, g =>
    nforce (bbShift ray East) fun ray2 =>
    nforce (gridSet g (Square.mk r f) ray2) fun g2 =>
    raysEastInner k r (f + 1) ray2 g2

/-- Rank loop of the East block: `bb` is the current rank, shifted North. -/
def raysEastGo : Nat → Nat → Nat → Nat → Nat
  | 0, _, _, g => g
  | k+1, r, bb, g =>
    nforce (raysEastInner 8 r 0 bb g) fun g2 =>
    nforce (bbShift bb North) fun bb2 =>
    raysEastGo k (r + 1) bb2 g2

/-- The `RAYS[East]` grid. -/
def raysEast : Nat := raysEastGo 8 0 RANK_1 0

/-- Inner file loop of the West block: files descend (`f` is the fuel minus 1);
`ray` is shifted West before each write. -/
def raysWestInner : Nat → Nat → Nat → Nat → Nat
  | 0, _, _, g => g
  | k+1, r, ray, g =>
    nforce (bbShift ray West) fun ray2 =>
    nforce (gridSet g (Square.mk r k) ray2) fun g2 =>
    raysWestInner k r ray2 g2

/-- Rank loop of the West block. -/
def raysWestGo : Nat → Nat → Nat → Nat → Nat
  | 0, _, _, g => g
  | k+1, r, bb, g =>
    nforce (raysWestInner 8 r bb g) fun g2 =>
    nforce (bbShift bb North) fun bb2 =>
    raysWestGo k (r + 1) bb2 g2

/-- The `RAYS[West]` grid. -/
def raysWest : Nat := raysWestGo 8 0 RANK_1 0

/-- Inner file loop of the NorthEast block: write first, then shift East. -/
def raysNEInner : Nat → Nat → Nat → Nat → Nat → Nat
  | 0, _, _, _, g => g
  | k+1, r, f, ray, g =>
    nforce (gridSet g (Square.mk r f) ray) fun g2 =>
    nforce (bbShift ray East) fun ray2 =>
    raysNEInner k r (f + 1) ray2 g2

/-- Rank loop of the NorthEast block. -/
def raysNEGo : Nat → Nat → Nat → Nat → Nat
  | 0, _, _, g => g
  | k+1, r, bb, g =>
    nforce (raysNEInner 8 r 0 bb g) fun g2 =>
    nforce (bbShift bb North) fun bb2 =>
    raysNEGo k (r + 1) bb2 g2

/-- The `RAYS[NorthEast]` grid (seed `DIAG_A1_H8 ^ single(A1)`). -/
def raysNE : Nat := raysNEGo 8 0 (DIAG_A1_H8 ^^^ bitSingle 0) 0

/-- Inner file loop of the NorthWest block: files descend; write, then shift West. -/
def raysNWInner : Nat → Nat → Nat → Nat → Nat
  | 0, _, _, g => g
  | k+1, r, ray, g =>
    nforce (gridSet g (Square.mk r k) ray) fun g2 =>
    nforce (bbShift ray West) fun ray2 =>
    raysNWInner k r ray2 g2

/-- Rank loop of the NorthWest block. -/
def raysNWGo : Nat → Nat → Nat → Nat → Nat
  | 0, _, _, g => g
  | k+1, r, bb, g =>
    nforce (raysNWInner 8 r bb g) fun g2 =>
    nforce (bbShift bb North) fun bb2 =>
    raysNWGo k (r + 1) bb2 g2

/-- The `RAYS[NorthWest]` grid (seed `DIAG_A8_H1 ^ single(H1)`). -/
def raysNW : Nat := raysNWGo 8 0 (DIAG_A8_H1 ^^^ bitSingle 7) 0

/-- Inner file loop of the SouthEast block: write, then shift East. -/
def raysSEInner : Nat → Nat → Nat → Nat → Nat → Nat
  | 0, _, _, _, g => g
  | k+1, r, f, ray, g =>
    nforce (gridSet g (Square.mk r f) ray) fun g2 =>
    nforce (bbShift ray East) fun ray2 =>
    raysSEInner k r (f + 1) ray2 g2

/-- Rank loop of the SouthEast block: ranks descend (`r` is the fuel minus 1);
`bb` is shifted South between ranks. -/
def raysSEGo : Nat → Nat → Nat → Nat
  | 0, _, g => g
  | k+1, bb, g =>
    nforce (raysSEInner 8 k 0 bb g) fun g2 =>
    nforce (bbShift bb South) fun bb2 =>
    raysSEGo k bb2 g2

/-- The `RAYS[SouthEast]` grid (seed `DIAG_A8_H1 ^ single(A8)`). -/
def raysSE : Nat := raysSEGo 8 (DIAG_A8_H1 ^^^ bitSingle 56) 0

/-- Inner file loop of the SouthWest block: files descend; write, then shift West. -/
def raysSWInner : Nat → Nat → Nat → Nat → Nat
  | 0, _, _, g => g
  | k+1, r, ray, g =>
    nforce (gridSet g (Square.mk r k) ray) fun g2 =>
    nforce (bbShift ray West) fun ray2 =>
    raysSWInner k r ray2 g2

/-- Rank loop of the SouthWest block: ranks descend. -/
def raysSWGo : Nat → Nat → Nat → Nat
  | 0, _, g => g
  | k+1, bb, g =>
    nforce (raysSWInner 8 k bb g) fun g2 =>
    nforce (bbShift bb South) fun bb2 =>
    raysSWGo k bb2 g2

/-- The `RAYS[SouthWest]` grid (seed `DIAG_A1_H8 ^ single(H8)`). -/
def raysSW : Nat := raysSWGo 8 (DIAG_A1_H8 ^^^ bitSingle 63) 0

/-- The full `RAYS` table of `build_rays`, indexed by `Direction::index`. -/
def RAYS : List Nat :=
  [raysNorth, raysSouth, raysEast, raysWest, raysNW, raysNE, raysSW, raysSE]

/-- Ray lookup (`attack.rs::get_ray`). -/
def getRay (d : Direction) (from_ : Square) : Nat :=
  gridGet (RAYS.getD d.dindex 0) from_

/-! ### build_pseudo_moves (note: the Bishop entry is built from the four
straight rays and the Rook entry from the four diagonal rays, exactly as in the
source) -/

/-- One square of the Pawn pseudo-move entry of `build_pseudo_moves`. -/
def pseudoPawnAt (sq : Square) : Nat :=
  bbShift (bitSingle sq) NorthWest ||| bbShift (bitSingle sq) NorthEast

/-- One square of the Knight entry of `build_pseudo_moves`. -/
def pseudoKnightAt (sq : Square) : Nat :=
  let bb := bitSingle sq
  bbShift (bbShift bb North) NorthEast |||
  bbShift (bbShift bb North) NorthWest |||
  bbShift (bbShift bb South) SouthWest |||
  bbShift (bbShift bb South) SouthEast |||
  bbShift (bbShift bb East) NorthEast |||
  bbShift (bbShift bb East) SouthEast |||
  bbShift (bbShift bb West) NorthWest |||
  bbShift (bbShift bb West) SouthWest

/-- One square of the Bishop entry of `build_pseudo_moves`: the source unions
the North, South, East and West rays here. -/
def pseudoBishopAt (sq : Square) : Nat :=
  getRay North sq ||| getRay South sq ||| getRay East sq ||| getRay West sq

/-- One square of the Rook entry of `build_pseudo_moves`: the source unions the
four diagonal rays here. -/
def pseudoRookAt (sq : Square) : Nat :=
  getRay NorthWest sq ||| getRay NorthEast sq |||
  getRay SouthWest sq ||| getRay SouthEast sq

/-- One square of the Queen entry of `build_pseudo_moves`: all 8 rays. -/
def pseudoQueenAt (sq : Square) : Nat :=
  getRay North sq ||| getRay South sq ||| getRay East sq ||| getRay West sq |||
  getRay NorthWest sq ||| getRay NorthEast sq |||
  getRay SouthWest sq ||| getRay SouthEast sq

/-- One square of the King entry of `build_pseudo_moves`. -/
def pseudoKingAt (sq : Square) : Nat :=
  let bb := bitSingle sq
  bbShift bb North ||| bbShift bb South ||| bbShift bb East ||| bbShift bb West |||
  bbShift bb NorthWest ||| bbShift bb NorthEast |||
  bbShift bb SouthWest ||| bbShift bb SouthEast

/-- The square loop of `build_pseudo_moves` for one piece type. -/
def pseudoGridGo (atSq : Square → Nat) : Nat → Nat → Nat → Nat
  | 0, _, g => g
  | f+1, sq, g =>
    nforce (gridSet g sq (atSq sq)) fun g2 =>
    pseudoGridGo atSq f (sq + 1) g2

/-- The `PSEUDO_MOVES` table of `build_pseudo_moves`, indexed by
`PieceType::index`. -/
def PSEUDO_MOVES : List Nat :=
  [pseudoGridGo pseudoPawnAt 64 0 0,
   pseudoGridGo pseudoKnightAt 64 0 0,
   pseudoGridGo pseudoBishopAt 64 0 0,
   pseudoGridGo pseudoRookAt 64 0 0,
   pseudoGridGo pseudoQueenAt 64 0 0,
   pseudoGridGo pseudoKingAt 64 0 0]

/-- Looks up a `PSEUDO_MOVES` entry. -/
def pseudoMoves (pt : PieceType) (sq : Square) : Nat :=
  gridGet (PSEUDO_MOVES.getD pt.index 0) sq

/-! ### build_pawn_moves -/

/-- One square of the pawn-attack grid of `build_pawn_moves`. -/
def pawnAttackAt (c : Color) (sq : Square) : Nat :=
  let bb := bitSingle sq
  match c with
  | White => bbShift bb NorthWest ||| bbShift bb NorthEast
  | Black => bbShift bb SouthWest ||| bbShift bb SouthEast

/-- One square of the pawn-push grid of `build_pawn_moves`: one step in the
pawn direction, or-ed with a second step from the pawn home rank. -/
def pawnPushAt (c : Color) (sq : Square) : Nat :=
  let d := Direction.ofPawns c
  let push := bbShift (bitSingle sq) d
  if sq.rankOf = Rank.ofPawns c then push ||| bbShift push d else push

/-- The `PAWN_PUSHES` table of `build_pawn_moves`, indexed by `Color::index`. -/
def PAWN_PUSHES : List Nat :=
  [pseudoGridGo (pawnPushAt White) 64 0 0, pseudoGridGo (pawnPushAt Black) 64 0 0]

/-- The `PAWN_ATTACKS` table of `build_pawn_moves`, indexed by `Color::index`. -/
def PAWN_ATTACKS : List Nat :=
  [pseudoGridGo (pawnAttackAt White) 64 0 0, pseudoGridGo (pawnAttackAt Black) 64 0 0]

/-! ### build_dir_between

In `build_dir_between` the two inner loops only write row `from` of the table,
so the table is built one origin row at a time; a row stores direction indices
in 4-bit slots and starts as 64 copies of `NoDir` (index 8). -/

/-- Writes one direction index for every target square on a ray
(`for to in get_ray(dir, from)` in `build_dir_between`). -/
def dirBtwRayGo (d : Direction) : List Square → Nat → Nat
  | [], row => row
  | toSq :: rest, row =>
    nforce (slot4Set row toSq d.dindex) fun row2 =>
    dirBtwRayGo d rest row2

/-- The direction loop of `build_dir_between` for one origin square. -/
def dirBtwDirsGo (from_ : Square) : List Direction → Nat → Nat
  | [], row => row
  | d :: rest, row =>
    nforce (dirBtwRayGo d (bbToList (getRay d from_)) row) fun row2 =>
    dirBtwDirsGo from_ rest row2

/-- One origin row of `DIR_BETWEEN`; the initial constant is the 64-fold
repetition of the hex digit 8 (`NoDir` everywhere). -/
def dirBtwRow (from_ : Square) : Nat :=
  dirBtwDirsGo from_ ALL_DIRECTIONS (((1 <<< 256) - 1) / 15 * 8)

/-- The origin loop of `build_dir_between`, producing the rows in order. -/
def dirBtwGo : Nat → Nat → List Nat
  | 0, _ => []
  | f+1, from_ => nforceP (dirBtwRow from_) fun row => row :: dirBtwGo f (from_ + 1)

/-- The `DIR_BETWEEN` table of `build_dir_between`: one 4-bit-slot row `Nat`
per origin square. -/
def DIR_BETWEEN : List Nat := dirBtwGo 64 0

/-! ### build_lines

In `build_lines` every write of `set_lines` targets row `sq1` of the table, so
the table is likewise built one origin row at a time: row `sq1` receives, in
the order of the six `set_lines` calls of the source and of their shift
iterations, a write of `bb` at every `sq2 in bb` whenever `sq1 in bb`. -/

/-- Writes `bb` into the row at every square of `bb`
(the inner `for sq2 in bb` loop of `set_lines`). -/
def linesInnerGo (bb : Nat) : List Square → Nat → Nat
  | [], row => row
  | sq2 :: rest, row =>
    nforce (gridSet row sq2 bb) fun row2 =>
    linesInnerGo bb rest row2

/-- The shift loop of `set_lines`, restricted to the row of origin `sq1`: when
`sq1` is in `bb`, all pairs `(sq1, sq2 in bb)` are written. -/
def setLinesRowGo (sq1 : Square) (d : Direction) : Nat → Nat → Nat → Nat
  | 0, _, row => row
  | n+1, bb, row =>
    nforce (if bbGet bb sq1 then linesInnerGo bb (bbToList bb) row else row) fun row2 =>
    nforceP (bbShift bb d) fun bb2 =>
    setLinesRowGo sq1 d n bb2 row2

/-- One origin row of `LINES`: the six `set_lines` calls of `build_lines`, in
source order. -/
def linesRow (sq1 : Square) : Nat :=
  nforce (setLinesRowGo sq1 North 8 RANK_1 0) fun g1 =>
  nforce (setLinesRowGo sq1 East 8 FILE_A g1) fun g2 =>
  nforce (setLinesRowGo sq1 NorthWest 4 DIAG_A1_H8 g2) fun g3 =>
  nforce (setLinesRowGo sq1 SouthEast 4 DIAG_A1_H8 g3) fun g4 =>
  nforce (setLinesRowGo sq1 NorthEast 4 DIAG_A8_H1 g4) fun g5 =>
  setLinesRowGo sq1 SouthWest 4 DIAG_A8_H1 g5

/-- The origin loop assembling `LINES`, producing the rows in order. -/
def linesGo : Nat → Nat → List Nat
  | 0, _ => []
  | f+1, sq1 => nforceP (linesRow sq1) fun row => row :: linesGo f (sq1 + 1)

/-- The `LINES` table of `build_lines`: one 64-bit-slot row `Nat` per origin
square. -/
def LINES : List Nat := linesGo 64 0

/-! ## attack.rs -/

/-- The direction from one square to another if co-linear, else `NoDir`
(`attack.rs::direction_between`, reading the generated `DIR_BETWEEN`). -/
def directionBetween (from_ toSq : Square) : Direction :=
  Direction.ofIndex (slot4Get (DIR_BETWEEN.getD from_ 0) toSq)

/-- The squares strictly between two squares (`attack.rs::fill_between`). -/
def fillBetween (from_ toSq : Square) : Nat :=
  let d := directionBetween from_ toSq
  getRay d from_ ^^^ getRay d toSq ^^^ bitSingle toSq

/-- The full line through two squares extended to the board edges
(`attack.rs::fill_line`, reading the generated `LINES`). -/
def fillLine (from_ toSq : Square) : Nat :=
  gridGet (LINES.getD from_ 0) toSq

/-- Fill a ray attack towards a direction (`attack.rs::fill`): the ray is cut
after the first blocker (scanned from the near side by the sign of the
direction), and friendly squares are removed. -/
def fill (d : Direction) (from_ : Square) (sameColor enemy : Nat) : Nat :=
  let ray := getRay d from_
  let blockers := (sameColor ||| enemy) &&& ray
  let ray2 :=
    if blockers != 0 then
      let blocker := if 0 < d.delta then scanForward blockers else scanReverse blockers
      ray ^^^ getRay d blocker
    else ray
  ray2 &&& bbNot sameColor

/-- The pawn pushes and double pushes (`attack.rs::pawn_pushes`); a blocker
directly in front cancels the double push through `no_reach`. -/
def pawnPushes (c : Color) (from_ : Square) (blockers : Nat) : Nat :=
  let d := Direction.ofPawns c
  let noReach := bbShift (bbShift (bitSingle from_) d &&& blockers) d
  gridGet (PAWN_PUSHES.getD c.index 0) from_ &&& bbNot noReach &&& bbNot blockers

/-- The pawn diagonal attacks, restricted to enemies (`attack.rs::of_pawn`). -/
def ofPawn (c : Color) (from_ : Square) (enemy : Nat) : Nat :=
  gridGet (PAWN_ATTACKS.getD c.index 0) from_ &&& enemy

/-- The knight attacks (`attack.rs::of_knight`). -/
def ofKnight (from_ : Square) (sameColor : Nat) : Nat :=
  pseudoMoves Knight from_ &&& bbNot sameColor

/-- The four diagonal rays from a square (`attack.rs::bishop_rays`). -/
def bishopRays (from_ : Square) : Nat :=
  getRay NorthWest from_ ||| getRay NorthEast from_ |||
  getRay SouthWest from_ ||| getRay SouthEast from_

/-- The bishop attacks (`attack.rs::of_bishop`). -/
def ofBishop (from_ : Square) (sameColor enemy : Nat) : Nat :=
  fill NorthWest from_ sameColor enemy |||
  fill NorthEast from_ sameColor enemy |||
  fill SouthWest from_ sameColor enemy |||
  fill SouthEast from_ sameColor enemy

/-- The horizontal and vertical rays from a square (`attack.rs::rook_rays`). -/
def rookRays (from_ : Square) : Nat :=
  getRay North from_ ||| getRay South from_ |||
  getRay West from_ ||| getRay East from_

/-- The rook attacks (`attack.rs::of_rook`). -/
def ofRook (from_ : Square) (sameColor enemy : Nat) : Nat :=
  fill North from_ sameColor enemy |||
  fill South from_ sameColor enemy |||
  fill West from_ sameColor enemy |||
  fill East from_ sameColor enemy

/-- The queen attacks (`attack.rs::of_queen`). -/
def ofQueen (from_ : Square) (sameColor enemy : Nat) : Nat :=
  ofBishop from_ sameColor enemy ||| ofRook from_ sameColor enemy

/-- The king attacks (`attack.rs::of_king`). -/
def ofKing (from_ : Square) (sameColor : Nat) : Nat :=
  pseudoMoves King from_ &&& bbNot sameColor


/-! ## moves.rs -/

/-- The side of a castling (`moves.rs::castling::Side`). -/
inductive Side where
  | King
  | Queen
deriving DecidableEq

/-- The index of a castling side (`Side::index`). -/
def Side.index : Side → Nat
  | Side.King => 0
  | Side.Queen => 1

/-- A special move property (`moves.rs::MoveFlag`). -/
inductive MoveFlag where
  | Quiet
  | EnPassant (passed : Square)
  | Promotion (pt : PieceType)
  | Castling (side : Side)
deriving DecidableEq

/-- A minimal move information (`moves.rs::Move`). -/
structure Move where
  from_ : Square
  to_ : Square
  flag : MoveFlag
deriving DecidableEq

/-- The null move `Move::NONE`. -/
def Move.NONE : Move := ⟨SQ_NONE, SQ_NONE, MoveFlag.Quiet⟩

/-- A plain quiet move (`Move::quiet`). -/
def Move.quiet (f t : Square) : Move := ⟨f, t, MoveFlag.Quiet⟩

/-- An en passant move that captures a pawn at a square (`Move::en_passant`). -/
def Move.enPassant (f t passed : Square) : Move := ⟨f, t, MoveFlag.EnPassant passed⟩

/-- A promotion into a piece type (`Move::promotion`; the Rust panic on an
inadequate piece type cannot fire at the translated call sites, which all pass
a type from `ALL_PIECE_TYPES[1..=4]` or check `can_be_promotion` first). -/
def Move.promotion (f t : Square) (pt : PieceType) : Move := ⟨f, t, MoveFlag.Promotion pt⟩

/-- The king/rook origin and destination squares of a castling
(`Move::CASTLINGS` and `Move::castling_coords`); piece types other than
King/Rook abort in Rust and yield the sentinel pair here. -/
def Move.castlingCoords (col : Color) (side : Side) (pt : PieceType) : Square × Square :=
  match col, side, pt with
  | White, Side.King, King => (4, 6)
  | White, Side.King, Rook => (7, 5)
  | White, Side.Queen, King => (4, 2)
  | White, Side.Queen, Rook => (0, 3)
  | Black, Side.King, King => (60, 62)
  | Black, Side.King, Rook => (63, 61)
  | Black, Side.Queen, King => (60, 58)
  | Black, Side.Queen, Rook => (56, 59)
  | _, _, _ => (SQ_NONE, SQ_NONE)

/-- The rook movement of a castling (`Move::rook_castling_coords`). -/
def Move.rookCastlingCoords (col : Color) (side : Side) : Square × Square :=
  Move.castlingCoords col side Rook

/-- Make a castling move for a player and a side (`Move::castling`). -/
def Move.castling (col : Color) (side : Side) : Move :=
  let ft := Move.castlingCoords col side King
  ⟨ft.1, ft.2, MoveFlag.Castling side⟩

/-- Whether the move is null (`Move::is_none`). -/
def Move.isNone (mv : Move) : Bool := mv == Move.NONE

/-- A simple verification of double-push nature (`Move::is_double_push`). -/
def Move.isDoublePush (mv : Move) (col : Color) : Bool :=
  let d := Direction.ofPawns col
  Rank.relative 1 col == mv.from_.rankOf &&
  (mv.from_.shiftDir d).shiftDir d == mv.to_

/-! ## position.rs: the Board -/

/-- The castling rights of one player (`castling::Rights`, `[bool; 2]`
indexed by `Side`). -/
structure Rights2 where
  kingSide : Bool
  queenSide : Bool
deriving DecidableEq

/-- The rights of both players (`position.rs::PlayersRights`). -/
structure PlayersRights where
  white : Rights2
  black : Rights2
deriving DecidableEq

/-- All rights held (`ALL_PLAYERS_RIGHTS`). -/
def ALL_PLAYERS_RIGHTS : PlayersRights := ⟨⟨true, true⟩, ⟨true, true⟩⟩

/-- No rights held (`NO_PLAYERS_RIGHTS`). -/
def NO_PLAYERS_RIGHTS : PlayersRights := ⟨⟨false, false⟩, ⟨false, false⟩⟩

/-- The board state (`position.rs::Board`): six piece-type bitboards, two
color bitboards, the incremental positional hash, the turn, the clocks, the
en-passant target, the castling rights, and the two derived caches. -/
structure Board where
  pPawn : Nat
  pKnight : Nat
  pBishop : Nat
  pRook : Nat
  pQueen : Nat
  pKing : Nat
  cWhite : Nat
  cBlack : Nat
  hash : Nat
  turn : Color
  halfMoveClock : Nat
  epTarget : Option Square
  rights : PlayersRights
  lastCapOrPush : Nat
  checkers : Nat
  pinned : Nat
deriving DecidableEq

/-- The bitboard of a piece type (`Board::piece_type`). -/
def Board.pieceType (b : Board) : PieceType → Nat
  | Pawn => b.pPawn
  | Knight => b.pKnight
  | Bishop => b.pBishop
  | Rook => b.pRook
  | Queen => b.pQueen
  | King => b.pKing

/-- Replaces the bitboard of a piece type (array store into `pieces`). -/
def Board.withPieceType (b : Board) (pt : PieceType) (v : Nat) : Board :=
  match pt with
  | Pawn => { b with pPawn := v }
  | Knight => { b with pKnight := v }
  | Bishop => { b with pBishop := v }
  | Rook => { b with pRook := v }
  | Queen => { b with pQueen := v }
  | King => { b with pKing := v }

/-- The bitboard of a player (`Board::color`). -/
def Board.colorBB (b : Board) : Color → Nat
  | White => b.cWhite
  | Black => b.cBlack

/-- Replaces the bitboard of a player (array store into `colors`). -/
def Board.withColorBB (b : Board) (c : Color) (v : Nat) : Board :=
  match c with
  | White => { b with cWhite := v }
  | Black => { b with cBlack := v }

/-- The bitboard of pieces owned by the current player (`Board::own_color`). -/
def Board.ownColor (b : Board) : Nat := b.colorBB b.turn

/-- The bitboard of pieces owned by the opponent (`Board::opponent_color`). -/
def Board.opponentColor (b : Board) : Nat := b.colorBB b.turn.opponent

/-- The bitboard of a piece type owned by the current player
(`Board::own_piece_type`). -/
def Board.ownPieceType (b : Board) (pt : PieceType) : Nat :=
  b.colorBB b.turn &&& b.pieceType pt

/-- The bitboard of a piece type owned by the opponent
(`Board::opponent_piece_type`). -/
def Board.opponentPieceType (b : Board) (pt : PieceType) : Nat :=
  b.colorBB b.turn.opponent &&& b.pieceType pt

/-- The bitboard of a piece of a color (`Board::piece` /
`Board::of_color_and_type`). -/
def Board.ofColorAndType (b : Board) (c : Color) (pt : PieceType) : Nat :=
  b.colorBB c &&& b.pieceType pt

/-- The bitboard of empty squares (`Board::empty`). -/
def Board.emptyBB (b : Board) : Nat := U64MASK ^^^ b.cWhite ^^^ b.cBlack

/-- The bitboard of all the pieces (`Board::occupied`). -/
def Board.occupied (b : Board) : Nat := b.cWhite ||| b.cBlack

/-- Whether a square is vacant (`Board::is_empty`). -/
def Board.isEmptyAt (b : Board) (sq : Square) : Bool := bbGet b.emptyBB sq

/-- The color of the piece at a square (`Board::color_at`). -/
def Board.colorAt (b : Board) (sq : Square) : Option Color :=
  if bbGet b.cWhite sq then some White
  else if bbGet b.cBlack sq then some Black
  else none

/-- The piece type at a square (`Board::piece_type_at`), decided by the same
if-chain as the source. -/
def Board.pieceTypeAt (b : Board) (sq : Square) : Option PieceType :=
  if !bbGet b.occupied sq then none
  else if bbGet b.pPawn sq then some Pawn
  else if bbGet b.pKnight sq then some Knight
  else if bbGet b.pBishop sq then some Bishop
  else if bbGet b.pRook sq then some Rook
  else if bbGet b.pQueen sq then some Queen
  else some King

/-- The piece at a square (`Board::piece_at`). -/
def Board.pieceAt (b : Board) (sq : Square) : Option Piece :=
  match b.colorAt sq, b.pieceTypeAt sq with
  | some c, some pt => some ⟨c, pt⟩
  | _, _ => none

/-- The known build-time constant `zobrist::INITIAL_HASH`. -/
def INITIAL_HASH : Nat := 0x123456789abcdef

/-- Modelled from the spec: the per-(piece, square) Zobrist random constants.
The generated `zobrist_tables.rs` is produced at build time from a seeded
external RNG and is not in the sources; the spec only requires fixed
per-feature constants XOR-ed in and out incrementally, so an explicit fixed
table stands in for the generated one (no claim depends on the values). -/
def hashPiece (pc : Piece) (sq : Square) : Nat :=
  (0x9E3779B97F4A7C15 * (pc.index + 12 * sq + 1) + 0xD1B54A32D192ED03) &&& U64MASK

/-- Add a piece at an empty square (`Board::add_piece`). -/
def Board.addPiece (b : Board) (pc : Piece) (sq : Square) : Board :=
  let b1 := b.withPieceType pc.ptype (bbAdd (b.pieceType pc.ptype) sq)
  let b2 := b1.withColorBB pc.color (bbAdd (b1.colorBB pc.color) sq)
  { b2 with hash := b2.hash ^^^ hashPiece pc sq }

/-- Remove a piece that was already set (`Board::remove_piece`). -/
def Board.removePiece (b : Board) (pc : Piece) (sq : Square) : Board :=
  let b1 := b.withPieceType pc.ptype (bbRemove (b.pieceType pc.ptype) sq)
  let b2 := b1.withColorBB pc.color (bbRemove (b1.colorBB pc.color) sq)
  { b2 with hash := b2.hash ^^^ hashPiece pc sq }

/-- Move a piece to an empty square (`Board::move_piece`). -/
def Board.movePiece (b : Board) (pc : Piece) (f t : Square) : Board :=
  (b.removePiece pc f).addPiece pc t

/-- The INITIAL_GRID piece bitboards of `position.rs`. -/
def INITIAL_PAWNS : Nat := 0xff00 ||| 0xff000000000000
def INITIAL_KNIGHTS : Nat := 0x42 ||| (0x42 <<< 56)
def INITIAL_BISHOPS : Nat := 0x24 ||| (0x24 <<< 56)
def INITIAL_ROOKS : Nat := 0x81 ||| (0x81 <<< 56)
def INITIAL_QUEENS : Nat := 0x08 ||| (0x08 <<< 56)
def INITIAL_KINGS : Nat := 0x10 ||| (0x10 <<< 56)

/-- The INITIAL_COLORS bitboards of `position.rs`. -/
def INITIAL_WHITE : Nat := 0xffff
def INITIAL_BLACK : Nat := 0xffff000000000000

/-- An empty board (`Board::default`): empty bitboards, all rights, then
`rehash` (defined below) is applied. -/
def Board.defaultRaw : Board :=
  { pPawn := 0, pKnight := 0, pBishop := 0, pRook := 0, pQueen := 0, pKing := 0
    cWhite := 0, cBlack := 0
    hash := INITIAL_HASH, turn := White
    halfMoveClock := 0, epTarget := none
    rights := ALL_PLAYERS_RIGHTS, lastCapOrPush := 0
    checkers := 0, pinned := 0 }

/-- The initial configuration (`Board::new`). -/
def Board.new : Board :=
  { pPawn := INITIAL_PAWNS, pKnight := INITIAL_KNIGHTS, pBishop := INITIAL_BISHOPS
    pRook := INITIAL_ROOKS, pQueen := INITIAL_QUEENS, pKing := INITIAL_KINGS
    cWhite := INITIAL_WHITE, cBlack := INITIAL_BLACK
    hash := INITIAL_HASH, turn := White
    halfMoveClock := 0, epTarget := none
    rights := ALL_PLAYERS_RIGHTS, lastCapOrPush := 0
    checkers := 0, pinned := 0 }

/-- The initial bitboard of a piece (`INITIAL_GRID` meet `INITIAL_COLORS`). -/
def initialPieceBB (pc : Piece) : Nat :=
  (Board.new.pieceType pc.ptype) &&& (Board.new.colorBB pc.color)

/-- All the twelve pieces in the order of `units.rs::ALL_PIECES`. -/
def ALL_PIECES : List Piece :=
  [⟨White, Pawn⟩, ⟨White, Knight⟩, ⟨White, Bishop⟩, ⟨White, Rook⟩,
   ⟨White, Queen⟩, ⟨White, King⟩,
   ⟨Black, Pawn⟩, ⟨Black, Knight⟩, ⟨Black, Bishop⟩, ⟨Black, Rook⟩,
   ⟨Black, Queen⟩, ⟨Black, King⟩]

/-- Recompute the positional hash from scratch (`Board::rehash`). -/
def Board.rehash (b : Board) : Board :=
  let h := ALL_PIECES.foldl
    (fun acc pc =>
      let bbSelf := b.ofColorAndType pc.color pc.ptype
      let bbInitial := initialPieceBB pc
      let acc1 := (bbToList bbSelf).foldl
        (fun a sq => if bbGet bbInitial sq then a else a ^^^ hashPiece pc sq) acc
      (bbToList bbInitial).foldl
        (fun a sq => if bbGet bbSelf sq then a else a ^^^ hashPiece pc sq) acc1)
    INITIAL_HASH
  { b with hash := h }

/-- The empty board (`Board::default`), with its hash recomputed. -/
def Board.defaultBoard : Board := Board.defaultRaw.rehash

/-- The number of moves played since the beginning of the game
(`Board::num_moves_played`): twice the clock, plus one when Black is to move. -/
def Board.numMovesPlayed (b : Board) : Nat :=
  b.halfMoveClock * 2 + (match b.turn with | White => 0 | Black => 1)

/-- Whether a player has the right to castle on a side (`Board::has_right`). -/
def Board.hasRight (b : Board) (player : Color) (side : Side) : Bool :=
  match player, side with
  | White, Side.King => b.rights.white.kingSide
  | White, Side.Queen => b.rights.white.queenSide
  | Black, Side.King => b.rights.black.kingSide
  | Black, Side.Queen => b.rights.black.queenSide

/-- Add a castling right (`Board::add_right`). -/
def Board.addRight (b : Board) (player : Color) (side : Side) : Board :=
  match player, side with
  | White, Side.King => { b with rights := { b.rights with white := { b.rights.white with kingSide := true } } }
  | White, Side.Queen => { b with rights := { b.rights with white := { b.rights.white with queenSide := true } } }
  | Black, Side.King => { b with rights := { b.rights with black := { b.rights.black with kingSide := true } } }
  | Black, Side.Queen => { b with rights := { b.rights with black := { b.rights.black with queenSide := true } } }

/-- Remove a castling right (`Board::remove_right`). -/
def Board.removeRight (b : Board) (player : Color) (side : Side) : Board :=
  match player, side with
  | White, Side.King => { b with rights := { b.rights with white := { b.rights.white with kingSide := false } } }
  | White, Side.Queen => { b with rights := { b.rights with white := { b.rights.white with queenSide := false } } }
  | Black, Side.King => { b with rights := { b.rights with black := { b.rights.black with kingSide := false } } }
  | Black, Side.Queen => { b with rights := { b.rights with black := { b.rights.black with queenSide := false } } }

/-- Remove all castling rights for a player (`Board::remove_rights`). -/
def Board.removeRights (b : Board) (player : Color) : Board :=
  (b.removeRight player Side.King).removeRight player Side.Queen

/-- Whether a square is directly threatened by pieces of a color
(`Board::is_attacked`). -/
def Board.isAttacked (b : Board) (sq : Square) (by_ : Color) : Bool :=
  let me := by_.opponent
  let ours := b.colorBB me
  let enemy := b.colorBB by_
  bbIntersects (ofBishop sq ours enemy) (enemy &&& b.pieceType Bishop ||| (enemy &&& b.pieceType Queen)) ||
  bbIntersects (ofRook sq ours enemy) (enemy &&& b.pieceType Rook ||| (enemy &&& b.pieceType Queen)) ||
  bbIntersects (ofKnight sq ours) (enemy &&& b.pieceType Knight) ||
  bbIntersects (ofPawn me sq enemy) (enemy &&& b.pieceType Pawn) ||
  bbIntersects (ofKing sq ours) (enemy &&& b.pieceType King)

/-- Whether moving a piece to a square may not leave it en prise
(`Board::is_safe_to_move`); the Rust `unwrap` of `color_at(from)` aborts on an
empty origin, embedded as `false` at the impossible call sites (the generator
only calls this with the king on `from`). -/
def Board.isSafeToMove (b : Board) (f t : Square) : Bool :=
  match b.colorAt f with
  | none => false
  | some me =>
    let ours := b.colorBB me ^^^ bitSingle f
    let enemy := b.colorBB me.opponent &&& bbNot (bitSingle t)
    let enm := fun pt => enemy &&& b.pieceType pt
    let attackers :=
      (ofBishop t ours enemy &&& (enm Bishop ||| enm Queen)) |||
      (ofRook t ours enemy &&& (enm Rook ||| enm Queen)) |||
      (ofKnight t ours &&& enm Knight) |||
      (ofPawn me t enemy &&& enm Pawn) |||
      (ofKing t ours &&& enm King)
    attackers == 0

/-- Whether a square is safe for a color (`Board::is_safe`). -/
def Board.isSafe (b : Board) (sq : Square) (for_ : Color) : Bool :=
  !(b.isAttacked sq for_.opponent)

/-- Find the king of a player (`Board::king_square_of`). -/
def Board.kingSquareOf (b : Board) (player : Color) : Square :=
  scanForward (b.ofColorAndType player King)

/-- The current king (`Board::king_square`). -/
def Board.kingSquare (b : Board) : Square := b.kingSquareOf b.turn

/-- Whether a piece is pinned to the current king (`Board::is_pinned`). -/
def Board.isPinned (b : Board) (sq : Square) : Bool := bbGet b.pinned sq

/-- One pinner iteration of `Board::update_attacks`: zero occupied squares
between king and pinner make the pinner a checker, exactly one pins that
occupant, more block the ray. -/
def uaStep (occ ksq : Nat) (st : Nat × Nat) (pinner : Square) : Nat × Nat :=
  let pinnedBB := fillBetween ksq pinner &&& occ
  match popCount64 pinnedBB with
  | 0 => (bbAdd st.1 pinner, st.2)
  | 1 => (st.1, st.2 ||| pinnedBB)
  | _+2 => st

/-- Update pinners and checkers (`Board::update_attacks`). -/
def Board.updateAttacks (b : Board) : Board :=
  let ksq := b.kingSquare
  let bishops := b.opponentPieceType Bishop
  let rooks := b.opponentPieceType Rook
  let queens := b.opponentPieceType Queen
  let pinners := (bishopRays ksq &&& (bishops ||| queens)) |||
                 (rookRays ksq &&& (rooks ||| queens))
  let st := (bbToList pinners).foldl (uaStep b.occupied ksq) (0, 0)
  let pawns := b.opponentPieceType Pawn
  let knights := b.opponentPieceType Knight
  let checkers2 := st.1 ||| (ofKnight ksq b.ownColor &&& knights)
                        ||| (ofPawn b.turn ksq b.opponentColor &&& pawns)
  { b with checkers := checkers2, pinned := st.2 }

/-- The selected piece type of a move (`Board::type_moved_by`, whose `unwrap`
aborts when the origin is empty). -/
def Board.typeMovedBy (b : Board) (mv : Move) : Option PieceType :=
  b.pieceTypeAt mv.from_

/-- The eventual captured piece of a move (`Board::captured_by`). -/
def Board.capturedBy (b : Board) (mv : Move) : Option Piece :=
  match mv.flag with
  | MoveFlag.EnPassant passed => b.pieceAt passed
  | _ => b.pieceAt mv.to_

/-- The player-side pairs checked by the castling-rights part of
`Board::is_valid`, in loop order. -/
def PLAYERS_SIDES : List (Color × Side) :=
  [(White, Side.King), (White, Side.Queen), (Black, Side.King), (Black, Side.Queen)]

/-- Whether this position may theoretically occur (`Board::is_valid`). -/
def Board.isValid (b : Board) : Bool :=
  let cnt := fun (c : Color) (pt : PieceType) => popCount64 (b.pieceType pt &&& b.colorBB c)
  let isColorValid := fun (c : Color) =>
    cnt c Pawn ≤ 8 && cnt c Knight ≤ 10 && cnt c Bishop ≤ 10 &&
    cnt c Rook ≤ 10 && cnt c Queen ≤ 9 && cnt c King == 1
  if !(isColorValid Black) || !(isColorValid White) then false
  else if bbIntersects b.cBlack b.cWhite then false
  else
    let step := fun (acc : Option Nat) (pt : PieceType) =>
      match acc with
      | none => none
      | some bb => if bbIntersects (b.pieceType pt) bb then none else some (bb ||| b.pieceType pt)
    match ALL_PIECE_TYPES.foldl step (some 0) with
    | none => false
    | some bb =>
      let opponent := b.turn.opponent
      let ksq := b.kingSquareOf opponent
      if (b.emptyBB ||| bb) != U64MASK then false
      else if !(b.isSafe ksq opponent) then false
      else if bbGet (ofKing b.kingSquare b.ownColor) ksq then false
      else if match b.epTarget with
              | some passed => !(bbGet (b.opponentPieceType Pawn) passed)
              | none => false then false
      else
        PLAYERS_SIDES.all fun cs =>
          if b.hasRight cs.1 cs.2 then
            let kfrom := (Move.castlingCoords cs.1 cs.2 King).1
            let rfrom := (Move.castlingCoords cs.1 cs.2 Rook).1
            bbGet (b.ofColorAndType cs.1 King) kfrom &&
            bbGet (b.ofColorAndType cs.1 Rook) rfrom
          else true


/-! ## movegen.rs -/

/-- A bitboard of moves from one piece (`movegen.rs::MovesFromSquare`). -/
structure MovesFromSquare where
  moves : Nat
  from_ : Square
deriving DecidableEq

/-- The unmasked legal move generator (`movegen.rs::MoveGen`): per-piece
destination sets (`ArrayVec` kept in push order), special moves (en passant
and castling), the promotion origin mask, and the promotion iteration index. -/
structure MoveGen where
  quiets : List MovesFromSquare
  specials : List Move
  promotionMask : Nat
  promotionIndex : Nat
deriving DecidableEq

/-- An empty generator (`MoveGen::new`). -/
def MoveGen.empty : MoveGen := ⟨[], [], 0, 0⟩

/-- Add normal moves from a square (`MoveGen::add_moves_from`; `ArrayVec::push`
appends at the end). -/
def MoveGen.addMovesFrom (g : MoveGen) (f : Square) (moves : Nat) : MoveGen :=
  { g with quiets := g.quiets ++ [⟨moves, f⟩] }

/-- Add an en passant or castling move (`MoveGen::add_special_move`). -/
def MoveGen.addSpecialMove (g : MoveGen) (mv : Move) : MoveGen :=
  { g with specials := g.specials ++ [mv] }

/-- Add promotion moves (`MoveGen::add_promotion_from`). -/
def MoveGen.addPromotionFrom (g : MoveGen) (f : Square) (moves : Nat) : MoveGen :=
  let g2 := g.addMovesFrom f moves
  { g2 with promotionMask := bbAdd g2.promotionMask f }

/-- Pin filtering for normal attacks (`MoveGen::add_non_outpinning_attacks`):
a pinned piece is restricted to the line through it and the king; empty
resulting sets are discarded. -/
def MoveGen.addNonOutpinningAttacks (g : MoveGen) (b : Board)
    (f : Square) (attacks : Nat) : MoveGen :=
  let attacks2 := if b.isPinned f then attacks &&& fillLine f b.kingSquare else attacks
  if attacks2 != 0 then g.addMovesFrom f attacks2 else g

/-- Pin filtering for promotions (`MoveGen::add_non_outpinning_promotions`). -/
def MoveGen.addNonOutpinningPromotions (g : MoveGen) (b : Board)
    (f : Square) (proms : Nat) : MoveGen :=
  let proms2 := if b.isPinned f then proms &&& fillLine f b.kingSquare else proms
  if proms2 != 0 then g.addPromotionFrom f proms2 else g

/-- Try to add en passant moves for a target (`MoveGen::add_en_passant`):
rejected when the target is outside the evasion mask, when the captured pawn
is "pinned" with the king off its file (the horizontal discovered-check case),
or, per capturing pawn, when that pawn is pinned off the relevant line. -/
def MoveGen.addEnPassant (g : MoveGen) (b : Board) (epTarget : Square)
    (dests : Nat) : MoveGen :=
  if !bbGet dests epTarget then g
  else
    let passed := epTarget.shiftDir (Direction.ofPawns b.turn.opponent)
    if b.isPinned passed && b.kingSquare.fileOf != passed.fileOf then g
    else
      let bb := bbShift (bitSingle passed) West ||| bbShift (bitSingle passed) East
      (bbToList (bb &&& b.ownPieceType Pawn)).foldl
        (fun g2 f =>
          let pinRay := fillLine f b.kingSquare
          if !b.isPinned f || bbGet pinRay epTarget then
            g2.addSpecialMove (Move.enPassant f epTarget passed)
          else g2)
        g

/-- Castling generation (`MoveGen::add_castlings`): only when not in check,
with the in-between squares empty and the king path safe. -/
def MoveGen.addCastlings (g : MoveGen) (b : Board) (kingSq : Square) : MoveGen :=
  if b.checkers != 0 then g
  else
    let g1 :=
      if b.hasRight b.turn Side.King then
        let mv := Move.castling b.turn Side.King
        let middle := kingSq.shiftDir East
        let between := bitSingle middle ||| bitSingle mv.to_
        if !bbIntersects b.occupied between &&
           b.isSafe middle b.turn && b.isSafe mv.to_ b.turn then
          g.addSpecialMove mv
        else g
      else g
    if b.hasRight b.turn Side.Queen then
      let mv := Move.castling b.turn Side.Queen
      let middle := kingSq.shiftDir West
      let between := bitSingle middle ||| bitSingle mv.to_ ||| bitSingle (mv.to_.shiftDir West)
      if !bbIntersects b.occupied between &&
         b.isSafe middle b.turn && b.isSafe mv.to_ b.turn then
        g1.addSpecialMove mv
      else g1
    else g1

/-- The non-king move generation (`MoveGen::add_non_king_moves`): the evasion
destination mask, then pawns (promotions split out on the relative 7th rank),
en passant, knights, bishops, rooks and queens, in source order. -/
def MoveGen.addNonKingMoves (g : MoveGen) (b : Board) : MoveGen :=
  let dests :=
    if popCount64 b.checkers = 1 then
      let checker := scanForward b.checkers
      let sliders := b.opponentPieceType Bishop ||| b.opponentPieceType Rook |||
                     b.opponentPieceType Queen
      if bbGet sliders checker then
        b.checkers ||| fillBetween b.kingSquare checker
      else b.checkers
    else U64MASK
  let ours := b.ownColor
  let enemy := b.opponentColor
  let g1 := (bbToList (b.ownPieceType Pawn)).foldl
    (fun g2 f =>
      let attacks := (ofPawn b.turn f enemy ||| pawnPushes b.turn f (ours ||| enemy)) &&& dests
      if f.rankOf = Rank.relative 6 b.turn then
        g2.addNonOutpinningPromotions b f attacks
      else
        g2.addNonOutpinningAttacks b f attacks)
    g
  let g2 :=
    match b.epTarget with
    | some sq => g1.addEnPassant b sq dests
    | none => g1
  let g3 := (bbToList (b.ownPieceType Knight)).foldl
    (fun gg f => gg.addNonOutpinningAttacks b f (ofKnight f ours &&& dests)) g2
  let g4 := (bbToList (b.ownPieceType Bishop)).foldl
    (fun gg f => gg.addNonOutpinningAttacks b f (ofBishop f ours enemy &&& dests)) g3
  let g5 := (bbToList (b.ownPieceType Rook)).foldl
    (fun gg f => gg.addNonOutpinningAttacks b f (ofRook f ours enemy &&& dests)) g4
  (bbToList (b.ownPieceType Queen)).foldl
    (fun gg f => gg.addNonOutpinningAttacks b f (ofQueen f ours enemy &&& dests)) g5

/-- Build the generator from the legal moves of a board
(`MoveGen::new_from`): king moves always, the rest only under at most one
checker. -/
def MoveGen.newFrom (b : Board) : MoveGen :=
  let f := b.kingSquare
  let kingLegals := (bbToList (ofKing f b.ownColor)).foldl
    (fun acc t => if b.isSafeToMove f t then bbAdd acc t else acc) 0
  let g := MoveGen.empty.addMovesFrom f kingLegals
  if popCount64 b.checkers < 2 then
    (g.addNonKingMoves b).addCastlings b b.kingSquare
  else g

/-- One step of the `Iterator` impl of `MoveGen` (`MoveGen::next`), with
explicit fuel for the inner recursion; promotions are enumerated through
`ALL_PIECE_TYPES[promotion_index]` for indices 1 to 4. -/
def MoveGen.next : Nat → MoveGen → Option (Move × MoveGen)
  | 0, _ => none
  | fuel+1, g =>
    match g.quiets with
    | ofPiece :: rest =>
      if ofPiece.moves != 0 then
        let t := scanForward ofPiece.moves
        if bbGet g.promotionMask ofPiece.from_ then
          let idx := g.promotionIndex + 1
          if idx > 4 then
            MoveGen.next fuel
              { g with promotionIndex := 0,
                       quiets := ⟨bbRemove ofPiece.moves t, ofPiece.from_⟩ :: rest }
          else
            let pt := ALL_PIECE_TYPES.getD idx Pawn
            some (Move.promotion ofPiece.from_ t pt, { g with promotionIndex := idx })
        else
          some (Move.quiet ofPiece.from_ t,
                { g with quiets := ⟨bbRemove ofPiece.moves t, ofPiece.from_⟩ :: rest })
      else
        MoveGen.next fuel { g with quiets := rest }
    | [] =>
      match g.specials.getLast? with
      | some mv => some (mv, { g with specials := g.specials.dropLast })
      | none => none

/-- Drains the `MoveGen` iterator into the list of yielded moves. -/
def MoveGen.toList : Nat → MoveGen → List Move
  | 0, _ => []
  | fuel+1, g =>
    match MoveGen.next (fuel+1) g with
    | some (mv, g2) => mv :: MoveGen.toList fuel g2
    | none => []

/-- The exact size of the generator (`ExactSizeIterator::len` for `MoveGen`):
population counts, times 4 for promotion-flagged origins, plus the specials. -/
def MoveGen.len (g : MoveGen) : Nat :=
  g.quiets.foldl
    (fun n ofPiece =>
      n + popCount64 ofPiece.moves *
          (if bbGet g.promotionMask ofPiece.from_ then 4 else 1))
    0
  + g.specials.length

/-- Membership test (`MoveGenerator::contains` for `MoveGen`). -/
def MoveGen.containsMove (g : MoveGen) (mv : Move) : Bool :=
  match mv.flag with
  | MoveFlag.Quiet =>
    g.quiets.any fun ofPc => ofPc.from_ == mv.from_ && bbGet ofPc.moves mv.to_
  | MoveFlag.Promotion pt =>
    pt.canBePromotion &&
    g.quiets.any fun ofPc => ofPc.from_ == mv.from_ && bbGet ofPc.moves mv.to_
  | _ => g.specials.any fun mv2 => mv2 == mv

/-- The masked legal move generator (`movegen.rs::MoveGenMasked`). -/
structure MoveGenMasked where
  quiets : List MovesFromSquare
  specials : List Move
  origMask : Nat
  destMask : Nat
  promotionMask : Nat
  promotionIndex : Nat
deriving DecidableEq

/-- Whether a move is covered by the masks (`MoveGenMasked::is_covered`). -/
def MoveGenMasked.isCovered (g : MoveGenMasked) (mv : Move) : Bool :=
  bbGet g.origMask mv.from_ && bbGet g.destMask mv.to_

/-- The conversion `From<MoveGen> for MoveGenMasked`: full masks. -/
def MoveGenMasked.ofGen (g : MoveGen) : MoveGenMasked :=
  ⟨g.quiets, g.specials, U64MASK, U64MASK, g.promotionMask, g.promotionIndex⟩

/-- Restrict iteration to given origins (`MoveGenMasked::set_origin_mask`). -/
def MoveGenMasked.setOriginMask (g : MoveGenMasked) (froms : Nat) : MoveGenMasked :=
  { g with origMask := froms }

/-- Restrict iteration to given destinations
(`MoveGenMasked::set_destination_mask`). -/
def MoveGenMasked.setDestinationMask (g : MoveGenMasked) (dests : Nat) : MoveGenMasked :=
  { g with destMask := dests }

/-- One step of the `Iterator` impl of `MoveGenMasked`
(`MoveGenMasked::next`): as the unmasked one, but skipping masked-out origins
and destinations; its promotion branch increments and tests `>= 4` before
reading `ALL_PIECE_TYPES[promotion_index + 1]`. -/
def MoveGenMasked.next : Nat → MoveGenMasked → Option (Move × MoveGenMasked)
  | 0, _ => none
  | fuel+1, g =>
    match g.quiets with
    | ofPiece :: rest =>
      if !bbGet g.origMask ofPiece.from_ then
        MoveGenMasked.next fuel { g with quiets := rest }
      else if ofPiece.moves != 0 then
        let t := scanForward ofPiece.moves
        if !bbGet g.destMask t then
          MoveGenMasked.next fuel
            { g with quiets := ⟨bbRemove ofPiece.moves t, ofPiece.from_⟩ :: rest }
        else if bbGet g.promotionMask ofPiece.from_ then
          let idx := g.promotionIndex + 1
          if idx ≥ 4 then
            MoveGenMasked.next fuel
              { g with promotionIndex := 0,
                       quiets := ⟨bbRemove ofPiece.moves t, ofPiece.from_⟩ :: rest }
          else
            let pt := ALL_PIECE_TYPES.getD (idx + 1) Pawn
            some (Move.promotion ofPiece.from_ t pt, { g with promotionIndex := idx })
        else
          some (Move.quiet ofPiece.from_ t,
                { g with quiets := ⟨bbRemove ofPiece.moves t, ofPiece.from_⟩ :: rest })
      else
        MoveGenMasked.next fuel { g with quiets := rest }
    | [] =>
      match g.specials.getLast? with
      | some mv =>
        if g.isCovered mv then some (mv, { g with specials := g.specials.dropLast })
        else none
      | none => none

/-- Drains the `MoveGenMasked` iterator into the list of yielded moves.
The source `next` returns `None` for an uncovered special, which ends
iteration exactly as here. -/
def MoveGenMasked.toList : Nat → MoveGenMasked → List Move
  | 0, _ => []
  | fuel+1, g =>
    match MoveGenMasked.next (fuel+1) g with
    | some (mv, g2) => mv :: MoveGenMasked.toList fuel g2
    | none => []

/-- The exact size of the masked generator (`ExactSizeIterator::len` for
`MoveGenMasked`): population counts restricted to the masks, times 4 for
promotion-flagged origins, plus the covered specials. -/
def MoveGenMasked.len (g : MoveGenMasked) : Nat :=
  g.quiets.foldl
    (fun n ofPiece =>
      if bbGet g.origMask ofPiece.from_ then
        n + popCount64 (ofPiece.moves &&& g.destMask) *
            (if bbGet g.promotionMask ofPiece.from_ then 4 else 1)
      else n)
    0
  + (g.specials.filter fun mv => g.isCovered mv).length

/-! ## state.rs: FEN, move application, results -/

/-- Splits on whitespace runs (`str::split_whitespace`). -/
def splitWsGo : List Char → List Char → List (List Char)
  | [], acc => if acc.isEmpty then [] else [acc.reverse]
  | c :: rest, acc =>
    if c.isWhitespace then
      if acc.isEmpty then splitWsGo rest [] else acc.reverse :: splitWsGo rest []
    else splitWsGo rest (c :: acc)

/-- The whitespace-separated fields of a string. -/
def splitWs (s : List Char) : List (List Char) := splitWsGo s []

/-- Splits on a separator, keeping empty parts (`str::split`). -/
def splitChGo (sep : Char) : List Char → List Char → List (List Char)
  | [], acc => [acc.reverse]
  | c :: rest, acc =>
    if c = sep then acc.reverse :: splitChGo sep rest []
    else splitChGo sep rest (c :: acc)

/-- The separator-split parts of a string. -/
def splitCh (sep : Char) (s : List Char) : List (List Char) := splitChGo sep s []

/-- Parses a `PieceType` from its SAN letter (the `char_enum_conversions`
`TryFrom<char>` impl). -/
def PieceType.tryFromChar (c : Char) : Except String PieceType :=
  match c with
  | 'P' => .ok Pawn
  | 'N' => .ok Knight
  | 'B' => .ok Bishop
  | 'R' => .ok Rook
  | 'Q' => .ok Queen
  | 'K' => .ok King
  | _ => .error ("Couldn\x27t parse: `" ++ String.singleton c ++ "`")

/-- Parses a `Color` from `w`/`b` (the `char_enum_conversions`
`TryFrom<char>` impl). -/
def Color.tryFromChar (c : Char) : Except String Color :=
  match c with
  | 'w' => .ok White
  | 'b' => .ok Black
  | _ => .error ("Couldn\x27t parse: `" ++ String.singleton c ++ "`")

/-- Parses a piece from its FEN letter (`TryFrom<char> for Piece`): case gives
the color, the uppercased letter the type. -/
def Piece.tryFromChar (c : Char) : Except String Piece :=
  let color := if c.isUpper then White else Black
  match PieceType.tryFromChar c.toUpper with
  | .ok pt => .ok ⟨color, pt⟩
  | .error e => .error e

/-- The FEN letter of a piece (`Piece::to_char`): uppercase for White,
lowercase for Black. -/
def Piece.toChar (pc : Piece) : Char :=
  let c := match pc.ptype with
    | Pawn => 'P' | Knight => 'N' | Bishop => 'B'
    | Rook => 'R' | Queen => 'Q' | King => 'K'
  if pc.color == Black then c.toLower else c

/-- Parses a file letter (`File::from_char`). -/
def File.fromChar (c : Char) : Except String Nat :=
  if 'a' ≤ c && c ≤ 'h' then .ok (c.toNat - 'a'.toNat)
  else .error ("Invalid file: `" ++ String.singleton c ++ "`")

/-- Parses a rank digit (`Rank::from_char`). -/
def Rank.fromChar (c : Char) : Except String Nat :=
  if '1' ≤ c && c ≤ '8' then .ok (c.toNat - '1'.toNat)
  else .error ("Invalid rank: `" ++ String.singleton c ++ "`")

/-- Parses a square from SAN (`Square::from_san`): lowercase, exactly two
characters, file then rank. -/
def Square.fromSan (san : List Char) : Except String Square :=
  let low := san.map Char.toLower
  match low with
  | [cf, cr] => do
    let f ← File.fromChar cf
    let r ← Rank.fromChar cr
    .ok (Square.mk r f)
  | _ => .error ("Couldn\x27t parse square SAN: `" ++ String.mk low ++ "`")

/-- Parses a base-ten `u32` (`str::parse::<u32>` restricted to plain digit
strings, the only shape the FEN clock fields take). -/
def parseU32 : List Char → Option Nat
  | [] => none
  | cs =>
    if cs.all Char.isDigit then
      some (cs.foldl (fun n c => n * 10 + (c.toNat - '0'.toNat)) 0)
    else none

/-- The placement-row loop of `Board::from_fen`: `is_digit(9)` accepts the
digits 0 to 8 and advances the file, any other character must parse as a
piece added at the current square. -/
def fenRowGo (r : Nat) : List Char → Nat → Board → Except String Board
  | [], _, b => .ok b
  | c :: rest, f, b =>
    if '0' ≤ c && c ≤ '8' then
      fenRowGo r rest (f + (c.toNat - '0'.toNat)) b
    else
      match Piece.tryFromChar c with
      | .error e => .error e
      | .ok pc => fenRowGo r rest (f + 1) (b.addPiece pc (Square.mk r f))

/-- The placement loop of `Board::from_fen` over `/`-separated rows; the rank
starts at 8 and is decremented before each row (a ninth row underflows the
`u8` rank and aborts in Rust). -/
def fenRowsGo : List (List Char) → Nat → Board → Except String Board
  | [], _, b => .ok b
  | row :: rest, r, b =>
    match r with
    | 0 => .error "rank underflow"
    | rr+1 =>
      match fenRowGo rr row 0 b with
      | .error e => .error e
      | .ok b2 => fenRowsGo rest rr b2

/-- The castling-rights loop of `Board::from_fen`: `-` breaks, unknown
characters are an error. -/
def fenRightsGo : List Char → Board → Except String Board
  | [], b => .ok b
  | c :: rest, b =>
    match c with
    | 'K' => fenRightsGo rest (b.addRight White Side.King)
    | 'Q' => fenRightsGo rest (b.addRight White Side.Queen)
    | 'k' => fenRightsGo rest (b.addRight Black Side.King)
    | 'q' => fenRightsGo rest (b.addRight Black Side.Queen)
    | '-' => .ok b
    | _ => .error "Couldn\x27t parse castling right"

/-- Decidable equality for `Except` results, used to evaluate the embedded
parsers on concrete inputs. -/
instance {ε α : Type} [DecidableEq ε] [DecidableEq α] : DecidableEq (Except ε α) := fun a b =>
  match a, b with
  | .ok x, .ok y =>
    if h : x = y then .isTrue (by rw [h]) else .isFalse (fun hh => h (Except.ok.inj hh))
  | .error x, .error y =>
    if h : x = y then .isTrue (by rw [h]) else .isFalse (fun hh => h (Except.error.inj hh))
  | .ok _, .error _ => .isFalse Except.noConfusion
  | .error _, .ok _ => .isFalse Except.noConfusion

/-- Builds a Board from the FEN notation (`Board::from_fen`): six
whitespace-separated fields; placement, then turn, then `update_attacks`,
then rights, en-passant target and the clock (the full-move field only seeds
`last_cap_or_push`). -/
def Board.fromFen (fen : String) : Except String Board :=
  let items := splitWs fen.toList
  if items.length != 6 then .error "Not enough fields"
  else
    match fenRowsGo (splitCh '/' (items.getD 0 [])) 8 Board.defaultBoard with
    | .error e => .error e
    | .ok b1 =>
      match (items.getD 1 []).head? with
      | none => .error "empty turn field"
      | some turnChar =>
        match Color.tryFromChar turnChar with
        | .error e => .error e
        | .ok turn =>
          let b2 := Board.updateAttacks { b1 with turn := turn }
          let b3 := { b2 with rights := NO_PLAYERS_RIGHTS }
          match fenRightsGo (items.getD 2 []) b3 with
          | .error e => .error e
          | .ok b4 =>
            let sqData := items.getD 3 []
            let epE : Except String (Option Square) :=
              if sqData = ['-'] then .ok none
              else match Square.fromSan sqData with
                | .error e => .error e
                | .ok sq => .ok (some sq)
            match epE with
            | .error e => .error e
            | .ok ep =>
              let clock := (parseU32 (items.getD 4 [])).getD 1
              .ok { b4 with epTarget := ep, halfMoveClock := clock,
                            lastCapOrPush := clock * 2 }

/-- One placement rank of `Board::to_fen`: pieces interleaved with run-length
digits for empty squares. -/
def fenRankStr (b : Board) (r : Nat) : String :=
  let step := fun (acc : String × Nat) (f : Nat) =>
    match b.pieceAt (Square.mk r f) with
    | some pc =>
      if acc.2 > 0 then (acc.1 ++ toString acc.2 ++ String.singleton (Piece.toChar pc), 0)
      else (acc.1 ++ String.singleton (Piece.toChar pc), 0)
    | none => (acc.1, acc.2 + 1)
  let res := [0, 1, 2, 3, 4, 5, 6, 7].foldl step ("", 0)
  if res.2 > 0 then res.1 ++ toString res.2 else res.1

/-- The castling-rights field of `Board::to_fen`: `-` when no right is held,
otherwise, for each player in order, the King letter when the king-side right
is *not* held and the Queen letter when the queen-side right is *not* held
(the inverted tests mirror the source). -/
def fenRightsStr (b : Board) : String :=
  if b.rights == NO_PLAYERS_RIGHTS then "-"
  else
    let one := fun (player : Color) =>
      (if !(b.hasRight player Side.King) then
        String.singleton (Piece.toChar ⟨player, King⟩) else "") ++
      (if !(b.hasRight player Side.Queen) then
        String.singleton (Piece.toChar ⟨player, Queen⟩) else "")
    one White ++ one Black

/-- The SAN name of a square (`Square::san`). -/
def Square.san (sq : Square) : String :=
  String.singleton (Char.ofNat ('a'.toNat + sq.fileOf)) ++
  String.singleton (Char.ofNat ('1'.toNat + sq.rankOf))

/-- Returns the positional FEN notation (`Board::to_fen`): placement from rank
8 down to rank 1, the turn between single spaces, the castling field, then the
en-passant target, the half-move clock and `num_moves_played`. -/
def Board.toFen (b : Board) : String :=
  let placement := String.intercalate "/" ([7, 6, 5, 4, 3, 2, 1, 0].map (fenRankStr b))
  let turnStr := match b.turn with | White => "w" | Black => "b"
  let epStr := match b.epTarget with
    | some sq => sq.san
    | none => "-"
  placement ++ " " ++ turnStr ++ " " ++ fenRightsStr b ++
  " " ++ epStr ++ " " ++ toString b.halfMoveClock ++ " " ++ toString b.numMovesPlayed

/-- Castling-right revocation by home square (the inner `remove_right_for` helper of `update_meta_with`). -/
def Board.removeRightFor (b : Board) (sq : Square) : Board :=
  match sq with
  | 7 => b.removeRight White Side.King
  | 4 => b.removeRights White
  | 0 => b.removeRight White Side.Queen
  | 63 => b.removeRight Black Side.King
  | 60 => b.removeRights Black
  | 56 => b.removeRight Black Side.Queen
  | _ => b

/-- Update the castling rights, the en-passant target and the last
capture/push index before a move is played (`Board::update_meta_with`); the
`type_moved_by` unwrap aborts on an empty origin. -/
def Board.updateMetaWith (b : Board) (mv : Move) : Option Board :=
  let b1 := (b.removeRightFor mv.from_).removeRightFor mv.to_
  match b1.typeMovedBy mv with
  | none => none
  | some moved =>
    let b2 := { b1 with epTarget := none }
    let b3 :=
      if mv.isDoublePush b2.turn && moved == Pawn then
        { b2 with epTarget := some (mv.from_.shiftDir (Direction.ofPawns b2.turn)) }
      else b2
    if (b3.capturedBy mv).isSome || moved == Pawn then
      some { b3 with lastCapOrPush := b3.numMovesPlayed }
    else
      some b3

/-- Apply the move in place (`Board::apply_move`): a null move returns at
once; the assertion paths (moving from an empty square, selecting an
opponent piece, capturing a friend, flag mismatches) abort in Rust and
yield `none` here. -/
def Board.applyMove (b : Board) (mv : Move) : Option Board :=
  if mv.isNone then some b
  else do
    let b1 ← b.updateMetaWith mv
    let moved ← b1.pieceAt mv.from_
    if b1.colorAt mv.from_ != some b1.turn then none
    else do
      let b2 ← match b1.pieceAt mv.to_ with
        | some cap =>
          if cap.color == b1.turn then none else some (b1.removePiece cap mv.to_)
        | none => some b1
      let b3 := b2.movePiece moved mv.from_ mv.to_
      let b4 ← match mv.flag with
        | MoveFlag.Quiet => some b3
        | MoveFlag.EnPassant pawnSq =>
          let pawn : Piece := ⟨b3.turn.opponent, Pawn⟩
          if b3.pieceAt pawnSq == some pawn then some (b3.removePiece pawn pawnSq)
          else none
        | MoveFlag.Promotion newPt =>
          if moved.ptype == Pawn && newPt.canBePromotion then
            some ((b3.removePiece moved mv.to_).addPiece ⟨b3.turn, newPt⟩ mv.to_)
          else none
        | MoveFlag.Castling side =>
          if moved.ptype == King then
            let rc := Move.rookCastlingCoords b3.turn side
            some (b3.movePiece ⟨b3.turn, Rook⟩ rc.1 rc.2)
          else none
      let b5 :=
        if b4.turn == Black then { b4 with halfMoveClock := b4.halfMoveClock + 1 }
        else b4
      some (Board.updateAttacks { b5 with turn := b5.turn.opponent })

/-- Returns the subsequent board after a move (`Board::play_move`: clone then
`apply_move`). -/
def Board.playMove (b : Board) (mv : Move) : Option Board := b.applyMove mv

/-- The legal move generator of a board (`Board::legal_moves`). -/
def Board.legalMoves (b : Board) : MoveGen := MoveGen.newFrom b

/-- The number of legal moves (`Board::num_moves`). -/
def Board.numMoves (b : Board) : Nat := b.legalMoves.len

/-- Whether the current player is in check (`Board::in_check`). -/
def Board.inCheck (b : Board) : Bool := b.checkers != 0

/-- Whether the square color is dark (`Square::is_dark`). -/
def Square.isDark (sq : Square) : Bool :=
  ((sq.rankOf &&& 1) + (sq.fileOf &&& 1)) % 2 == 0

/-- A theoretical evaluation whether there are not enough pieces to win
(`Board::is_material_insufficient`). -/
def Board.isMaterialInsufficient (b : Board) : Bool :=
  match popCount64 b.occupied with
  | 2 => true
  | 3 => popCount64 b.pKnight == 1 || popCount64 b.pBishop == 1
  | 4 =>
    let wb := b.ofColorAndType White Bishop
    let bbp := b.ofColorAndType Black Bishop
    popCount64 wb == 1 && popCount64 bbp == 1 &&
    (scanForward wb).isDark == (scanForward bbp).isDark
  | _ => false

/-- A draw kind (`game.rs::DrawType`). -/
inductive DrawType where
  | Agreement
  | Stalemate
  | ThreefoldRepetition
  | FiftyMoveRule
  | InsufficientMaterial
deriving DecidableEq

/-- Whether a draw type can be claimed (`Board::can_claim_draw_with`); the
fifty-move arm compares `num_moves_played() - last_cap_or_push` with 50
(`u32` subtraction; on every board the code builds, the last capture/push
index never exceeds the move counter). -/
def Board.canClaimDrawWith (b : Board) (dt : DrawType) : Bool :=
  match dt with
  | DrawType.Agreement => true
  | DrawType.FiftyMoveRule => b.numMovesPlayed - b.lastCapOrPush > 50
  | DrawType.InsufficientMaterial => b.isMaterialInsufficient
  | DrawType.Stalemate => false
  | DrawType.ThreefoldRepetition => false

/-- The perft driver of `tests/perft.rs` (`explore`): at depth 1 the number of
legal moves, above it the sum over every legal move of the count of the
successor (the tests never call it at depth 0). -/
def explore : Nat → Board → Nat
  | 0, _ => 0
  | 1, b => b.numMoves
  | d+2, b =>
    ((b.legalMoves).toList 1024).foldl
      (fun n mv =>
        nforce n fun nf =>
        match b.playMove mv with
        | some b2 => nf + explore (d+1) b2
        | none => nf)
      0

/-! ## Definitions supporting the claim theorems -/

/-- Rust `PartialEq for Board` (`position.rs`): two boards compare equal when
their incremental hashes, turns, castling rights and en-passant targets do. -/
def Board.beq (a b : Board) : Bool :=
  a.hash == b.hash && a.turn == b.turn && a.rights == b.rights && a.epTarget == b.epTarget

/-- Applies a sequence of moves left to right (`Board::play_move` chained). -/
def seqApply (b : Board) (mvs : List Move) : Option Board :=
  mvs.foldl (fun ob mv => ob.bind (fun bb => bb.applyMove mv)) (some b)

/-- The position after 1.d4 e5 2.Bd2 Bb4 from the initial board: the white
bishop on d2 (square 11) is pinned to the king on e1 (square 4) along the
b4-e1 diagonal, a diagonal the generated `LINES` table misses. -/
def pinBoardOpt : Option Board :=
  seqApply Board.new
    [Move.quiet 11 27, Move.quiet 52 36, Move.quiet 2 11, Move.quiet 61 25]

/-- The board of the en-passant discovered-check test FEN
(`8/5bk1/8/2Pp4/8/1K6/8/8 w - d6 0 1`). -/
def epBoardE : Except String Board := Board.fromFen "8/5bk1/8/2Pp4/8/1K6/8/8 w - d6 0 1"

/-- The board of the en-passant test position one ply earlier, after Black
plays the double push d7-d5 (squares 51 to 35): `update_attacks` then runs on
a position whose b3-f7 ray holds the single black pawn d5. -/
def c7BoardOpt : Option Board :=
  (Board.fromFen "8/3p1bk1/8/2P5/8/1K6/8/8 b - - 0 1").toOption.bind
    (fun b => b.applyMove (Move.quiet 51 35))

/-- A board with a white pawn about to promote (e7, square 52) and the two
kings on a1 and a8. -/
def promBoardE : Except String Board := Board.fromFen "k7/4P3/8/8/8/8/8/K7 w - - 0 1"

/-- Fifteen rounds of the quiet shuffle Rh2-g2 / Kb8-a8-b8 / Rg2-h2: sixty
plies without a capture or a pawn move. -/
def shuffleMoves : List Move :=
  (List.replicate 15
    [Move.quiet 15 14, Move.quiet 56 57, Move.quiet 14 15, Move.quiet 57 56]).flatten

/-- The board reached by the sixty-ply shuffle from
`k7/8/8/8/8/8/7R/7K w - - 0 1`. -/
def c6BoardOpt : Option Board :=
  (Board.fromFen "k7/8/8/8/8/8/7R/7K w - - 0 1").toOption.bind
    (fun b => seqApply b shuffleMoves)

/-- Modelled from the spec: the number of full moves since the last capture
or pawn push, the quantity the fifty-move claim speaks about (two plies of the
move counter make one full move). -/
def fullMovesSinceLastCapOrPush (b : Board) : Nat :=
  (b.numMovesPlayed - b.lastCapOrPush) / 2

/-- A board whose move counter stands 102 plies (51 full moves) after the
last capture or pawn push. -/
def c6WitnessBoard : Board := { Board.new with halfMoveClock := 51 }

/-! ## Sanity checks of the embedding against the doc tests of the source -/

/-- The doc test of `attack::fill_between`: the squares between h1 and a8. -/
theorem sanity_fill_between :
    fillBetween 7 56 = (DIAG_A8_H1 ^^^ bitSingle 56 ^^^ bitSingle 7) := by decide

/-- The doc test of `attack::direction_between`: a1 to h8 is NorthEast. -/
theorem sanity_direction_between : directionBetween 0 63 = NorthEast := by decide

/-- The doc test of `attack::fill_line`: the line through c6 and f6 is rank 6. -/
theorem sanity_fill_line : fillLine 42 45 = RANK_1 <<< 40 := by decide

/-- The doc test of `attack::pawn_pushes`: e2 pushes to e3 and e4 on an empty
board, and a black b7 pawn with a blocker on b6 has no push. -/
theorem sanity_pawn_pushes :
    pawnPushes White 12 0 = (bitSingle 20 ||| bitSingle 28) ∧
    pawnPushes Black 49 (bitSingle 41) = 0 := by
  exact ⟨by decide, by decide⟩

/-- The doc test of `attack::of_rook`: a rook on e5 with a friend on h5 and an
enemy on a5 attacks the e-file and rank 5 cross minus its own square and the
friend. -/
theorem sanity_of_rook :
    ofRook 36 (bitSingle 39) (bitSingle 32) =
      ((FILE_A <<< 4 ||| RANK_1 <<< 32) ^^^ bitSingle 36 ^^^ bitSingle 39) := by decide

/-- The `from_fen` doc test: parsing the standard initial FEN yields exactly
`Board::new` (structurally, which is stronger than the `PartialEq` the source
asserts). -/
theorem sanity_from_fen_initial :
    Board.fromFen "rnbqkbnr/pppppppp/8/8/8/8/PPPPPPPP/RNBQKBNR w KQkq - 0 1" =
      .ok Board.new := by decide

/-- The forcing helper is semantically the identity. -/
theorem nforce_eq (n : Nat) (k : Nat → Nat) : nforce n k = k n := by
  cases n <;> rfl

/-- The polymorphic forcing helper is semantically the identity. -/
theorem nforceP_eq {α : Type} (n : Nat) (k : Nat → α) : nforceP n k = k n := by
  cases n <;> rfl

/-! ## Helper lemmas for the pinned-cache invariant -/

/-- Conjunction distributes over disjunction on bitboards. -/
theorem land_lor_right (a x c : Nat) : (a ||| x) &&& c = (a &&& c) ||| (x &&& c) := by
  apply Nat.eq_of_testBit_eq
  intro i
  simp [Nat.testBit_land, Nat.testBit_lor, Bool.and_or_distrib_right]

/-- Masking twice with the same bitboard masks once. -/
theorem land_land_self (x c : Nat) : (x &&& c) &&& c = x &&& c := by
  apply Nat.eq_of_testBit_eq
  intro i
  simp [Nat.testBit_land, Bool.and_assoc]

/-- One `update_attacks` pinner step keeps the pinned set inside the occupancy:
the only branch that grows it adds `fill_between ∩ occupied`. -/
theorem uaStep_preserves (occ ksq : Nat) (st : Nat × Nat) (p : Square)
    (h : st.2 &&& occ = st.2) : (uaStep occ ksq st p).2 &&& occ = (uaStep occ ksq st p).2 := by
  unfold uaStep
  dsimp only
  split
  · exact h
  · rw [land_lor_right, h, land_land_self]
  · exact h

/-- The pinner fold of `update_attacks` keeps the pinned set inside the
occupancy. -/
theorem uaFold_preserves (occ ksq : Nat) :
    ∀ (l : List Square) (st : Nat × Nat), st.2 &&& occ = st.2 →
      (l.foldl (uaStep occ ksq) st).2 &&& occ = (l.foldl (uaStep occ ksq) st).2 := by
  intro l
  induction l with
  | nil => intro st h; exact h
  | cons p rest ih =>
    intro st h
    exact ih (uaStep occ ksq st p) (uaStep_preserves occ ksq st p h)

/-! ## The claim theorems -/

/-- C1: from the initial position the leaf counts of full legal-move
exploration are 20 and 400 at depths 1 and 2, as the claim states;
at depth 5 the code diverges from the claimed 4,865,609 (its own perft test
log records an error of -56): at the reachable position after 1.d4 e5 2.Bd2
Bb4 the pinned bishop on d2 yields no generated move at all, because the
pin-line lookup `fill_line(d2, e1)` is empty, although the bishop attack set
from d2 still contains the pinner on b4 (so the capture Bxb4, and Bc3, are
legal chess moves the generator drops). -/
theorem c1_perft_depths_and_pinned_bishop :
    explore 1 Board.new = 20 ∧ explore 2 Board.new = 400 ∧
    (match pinBoardOpt with
     | some b => b.isPinned 11 &&
         (b.legalMoves.toList 1024).all (fun mv => mv.from_ != 11) &&
         bbGet (ofBishop 11 b.ownColor b.opponentColor) 25 &&
         decide (fillLine 11 b.kingSquare = 0)
     | none => false) = true := by
  refine ⟨by decide, by decide, by decide⟩

/-- C2: the FEN round trip fails on the code: the initial board is a valid
position, yet parsing its own export errors out, because `to_fen` writes the
castling letters of the *revoked* rights, so the castling field of the
initial position (all rights held) is empty and the exported string has five
fields instead of six; on a position holding only the white king-side right,
the export carries the inverted letters `Qkq` and the reparse yields a
different board. -/
theorem c2_fen_round_trip_fails_on_initial :
    Board.new.isValid = true ∧
    Board.fromFen (Board.toFen Board.new) = .error "Not enough fields" ∧
    (match Board.fromFen "4k3/8/8/8/8/8/8/4K2R w K - 0 1" with
     | .ok b => b.isValid &&
         decide (Board.toFen b = "4k3/8/8/8/8/8/8/4K2R w Qkq - 0 0") &&
         decide (Board.fromFen (Board.toFen b) ≠ .ok b)
     | .error _ => false) = true := by
  refine ⟨by decide, by decide, by decide⟩

/-- C3: the line-through lookup misses every other diagonal: d2 (square 11)
and e1 (square 4) are distinct and co-linear by the code's own
direction-between table, yet `fill_line` returns the empty set for them —
containing neither square — while behaving as claimed on ranks (sanity check
above): `build_lines` shifts a whole diagonal one diagonal step per
iteration, which advances two diagonals at a time and never writes the
odd-offset ones. -/
theorem c3_fill_line_misses_odd_diagonals :
    directionBetween 11 4 = SouthEast ∧ (11 : Square) ≠ 4 ∧
    fillLine 11 4 = 0 ∧ bbGet (fillLine 11 4) 11 = false ∧
    bbGet (fillLine 11 4) 4 = false := by
  refine ⟨by decide, by decide, by decide, by decide, by decide⟩

/-- C4: the precomputed pseudo-move entries of Bishop and Rook are swapped on
every square: the Bishop entry equals the union of the four rank/file rays
(`rook_rays`) and the Rook entry the union of the four diagonal rays
(`bishop_rays`); only the Queen (and King) entries match the claim. In
particular at d4 (square 27) the Bishop entry differs from its diagonal
rays. -/
theorem c4_pseudo_moves_bishop_rook_swapped :
    ((List.range 64).all fun sq =>
      pseudoMoves Bishop sq == rookRays sq &&
      pseudoMoves Rook sq == bishopRays sq &&
      pseudoMoves Queen sq == (rookRays sq ||| bishopRays sq)) = true ∧
    pseudoMoves Bishop 27 ≠ bishopRays 27 := by
  exact ⟨by decide, by decide⟩

/-- C5: on a board with one promotable pawn (e7) the masked generator built
with full masks reports `len` 7 (three king moves plus 4 promotions) but
iterating it yields only 6 moves, whose promotion flags are Bishop, Rook and
Queen — the Knight promotion is never produced — while the unmasked
generator yields all 7; the masked `next` is off by one in its promotion
enumeration. -/
theorem c5_masked_promotions_drop_knight :
    (match promBoardE with
     | .ok b =>
       let g := MoveGenMasked.ofGen b.legalMoves
       let lst := g.toList 1024
       g.len == 7 && lst.length == 6 &&
       lst.all (fun mv => mv.flag != MoveFlag.Promotion Knight) &&
       decide ((lst.filterMap (fun mv => match mv.flag with
         | MoveFlag.Promotion pt => some pt | _ => none)) = [Bishop, Rook, Queen]) &&
       b.legalMoves.len == 7 && (b.legalMoves.toList 1024).length == 7 &&
       decide (((b.legalMoves.toList 1024).filterMap (fun mv => match mv.flag with
         | MoveFlag.Promotion pt => some pt | _ => none)) =
           [Knight, Bishop, Rook, Queen])
     | .error _ => false) = true := by decide

/-- C6 counterexample: after sixty quiet plies (thirty full moves, so not
more than 50 full moves) since the last capture or pawn push, the code
already reports the fifty-move rule claimable — the claim, which ties
claimability to *more than 50 full moves*, is false at this board. -/
theorem c6_fifty_move_counterexample :
    (match c6BoardOpt with
     | some b => b.canClaimDrawWith DrawType.FiftyMoveRule &&
         decide (b.numMovesPlayed - b.lastCapOrPush = 60) &&
         decide (fullMovesSinceLastCapOrPush b = 30)
     | none => false) = true := by decide

/-- C6 amended: the fifty-move rule is reported claimable exactly when the
move counter stands more than 50 *plies* (half-moves), not full moves, after
the last capture or pawn push; consequently any position more than 50 full
moves past the last capture or pawn push does report it claimable (the
spec direction), but so do positions from 26 full moves on. The hypothesis
restricts to boards where the `u32` subtraction cannot underflow, which
holds on every board the code builds. -/
theorem c6_fifty_move_amended : ∀ b : Board,
    b.lastCapOrPush ≤ b.numMovesPlayed →
    ((b.canClaimDrawWith DrawType.FiftyMoveRule = true ↔
      50 < b.numMovesPlayed - b.lastCapOrPush) ∧
     (50 < fullMovesSinceLastCapOrPush b →
      b.canClaimDrawWith DrawType.FiftyMoveRule = true)) := by
  intro b _
  constructor
  · simp [Board.canClaimDrawWith]
  · intro hf
    simp only [Board.canClaimDrawWith, decide_eq_true_eq]
    exact Nat.lt_of_lt_of_le hf (Nat.div_le_self _ _)

/-- C6 amended, witness: a board 102 plies (51 full moves) past the last
capture or pawn push reports the fifty-move rule claimable. -/
theorem c6_fifty_move_amended_witness :
    c6WitnessBoard.canClaimDrawWith DrawType.FiftyMoveRule = true :=
  (c6_fifty_move_amended c6WitnessBoard (by decide)).2 (by decide)

/-- C7 counterexample: after Black's legal double push d7-d5, the recomputed
pinned cache holds exactly the *black* pawn on d5 (square 35) while White is
to move — the cache is not restricted to pieces of the side to move (and the
en-passant legality check relies on that enemy entry). -/
theorem c7_pinned_contains_enemy_counterexample :
    (match c7BoardOpt with
     | some b => decide (b.pinned = bitSingle 35) && b.turn == White &&
         decide (b.pinned &&& b.ownColor = 0) && bbGet b.cBlack 35
     | none => false) = true := by decide

/-- C7 amended: what `update_attacks` guarantees of the pinned cache is that
every square in it is occupied (each contribution is an intersection with the
occupancy): the cache holds the lone blocker between the king and an enemy
slider, whichever side that blocker belongs to. -/
theorem c7_pinned_subset_occupied : ∀ b : Board,
    (b.updateAttacks).pinned &&& b.occupied = (b.updateAttacks).pinned := by
  intro b
  show ((bbToList _).foldl (uaStep b.occupied b.kingSquare) (0, 0)).2 &&& b.occupied = _
  exact uaFold_preserves b.occupied b.kingSquare _ (0, 0) (by simp)

/-- C8: in the position parsed from `8/5bk1/8/2Pp4/8/1K6/8/8 w - d6 0 1` the
generator produces a nonempty legal move set containing no move with the
en-passant flag (and the membership test rejects the capture c5xd6): the captured pawn d5 sits alone between the white king b3
and the black bishop f7, so it lands in the pinned cache and the en-passant
capture c5xd6 is rejected. -/
theorem c8_en_passant_excluded :
    (match epBoardE with
     | .ok b => decide (b.pinned = bitSingle 35) && b.epTarget == some 43 &&
         (b.legalMoves.toList 1024).all (fun mv =>
           match mv.flag with | MoveFlag.EnPassant _ => false | _ => true) &&
         !(b.legalMoves.containsMove (Move.enPassant 34 43 35)) &&
         decide (0 < b.legalMoves.len)
     | .error _ => false) = true := by decide

/-- C9: board equality is decided by exactly the four compared fields —
incremental hash, turn, castling rights and en-passant target — and in
particular boards differing only in the half-move clock, the last
capture/push index, or the checkers/pinned caches compare equal. -/
theorem c9_board_equality_fields :
    (∀ a b : Board, Board.beq a b = true ↔
      (a.hash = b.hash ∧ a.turn = b.turn ∧ a.rights = b.rights ∧
       a.epTarget = b.epTarget)) ∧
    (∀ (a : Board) (hmc lcp chk pin : Nat),
      Board.beq a { a with halfMoveClock := hmc, lastCapOrPush := lcp,
                           checkers := chk, pinned := pin } = true) := by
  constructor
  · intro a b
    simp [Board.beq, Bool.and_eq_true, beq_iff_eq, and_assoc]
  · intro a hmc lcp chk pin
    simp [Board.beq]

/-- C10: applying the null move `Move::NONE` returns the board unchanged in
every field — the early return fires before any state is touched, so in
particular the turn does not flip. -/
theorem c10_null_move_identity : ∀ b : Board, Board.applyMove b Move.NONE = some b := by
  intro b
  rfl
